import Mathlib

/-!
Shallow embedding of the `batchio` package (src/batchio/writer.go): a
write-coalescing layer in two variants, the blocking `Writer` and the
non-blocking `DeadlineBufWriter`. Bytes are modelled as `Nat`, the
underlying sink as a function from the flushed payload to the pair
`(bytesWritten, optional error)` Go's `io.Writer.Write` returns, and the
capacity-1 channels (`notify`, `errors`) as a `Bool` or `Option` slot.
Every flush function also returns the list of payloads passed to the
underlying sink during it, so that call counts and call arguments can be
stated.
-/

set_option autoImplicit false

namespace Batchio

/-- Errors reported by the batch writers: either an error returned by the
underlying sink (of an abstract error type `ε`), or the package-level
`ErrShortWrite` value (writer.go line 44). -/
inductive BatchErr (ε : Type) where
  | sinkErr : ε → BatchErr ε
  | shortWrite : BatchErr ε
  deriving DecidableEq, Repr

/-- An underlying sink: its write operation takes the payload and returns
the count of bytes accepted together with an optional error, exactly the
shape of Go's `io.Writer.Write`. -/
def Sink (ε : Type) : Type := List Nat → Nat × Option ε

variable {ε : Type}

/-- State of the blocking `Writer` (writer.go lines 19-40) that the flush
logic reads and writes: the shared `buffer`, the latest flush error `err`
(`nil` modelled as `none`), and whether the capacity-1 `notify` channel
currently holds a pending wakeup. The mutexes, condition variable and
`quit` channel are concurrency plumbing with no data content. -/
structure Writer (ε : Type) where
  buffer : List Nat
  err : Option (BatchErr ε)
  notifyPending : Bool
  deriving DecidableEq, Repr

/-- A freshly constructed blocking writer, per `NewWriter` (writer.go
lines 48-64): empty buffer, no stored error, empty notify channel. -/
def Writer.new : Writer ε := ⟨[], none, false⟩

/-- The first half of `Writer.Write` (writer.go lines 74-85), up to the
suspension point `w.cond.Wait()`: append the payload to the shared buffer
and do a non-blocking send on the capacity-1 `notify` channel (if a wakeup
is already pending, nothing more is enqueued). -/
def Writer.append (w : Writer ε) (p : List Nat) : Writer ε :=
  { w with buffer := w.buffer ++ p, notifyPending := true }

/-- The second half of `Writer.Write` (writer.go lines 87-97), run after
the flusher's broadcast wakes the caller: read the stored error; report
`(0, err)` when it is set, `(len(p), nil)` otherwise. -/
def Writer.writeResult (w : Writer ε) (p : List Nat) : Nat × Option (BatchErr ε) :=
  match w.err with
  | some e => (0, some e)
  | none => (p.length, none)

/-- The sleep decision of `Writer.flusher` (writer.go lines 126-128): the
worker sleeps for `Timeout` before flushing exactly when the buffer size
is still below `maxSize`. -/
def Writer.sleepsBeforeFlush (w : Writer ε) (maxSize : Nat) : Bool :=
  w.buffer.length < maxSize

/-- One flush cycle of `Writer.flusher` (writer.go lines 125-151), entered
on receiving from `notify` (which empties that slot): when the buffer is
non-empty, pass it to the sink once; a sink error is stored in `err`, a
short count stores `ErrShortWrite`, and only on full success is the buffer
truncated to empty. The second component lists the payloads passed to the
sink during the cycle. -/
def Writer.flushCycle (w : Writer ε) (sink : Sink ε) : Writer ε × List (List Nat) :=
  let w0 : Writer ε := { w with notifyPending := false }
  if 0 < w.buffer.length then
    match sink w.buffer with
    | (_, some e) => ({ w0 with err := some (BatchErr.sinkErr e) }, [w.buffer])
    | (n, none) =>
      if n < w.buffer.length then
        ({ w0 with err := some BatchErr.shortWrite }, [w.buffer])
      else
        ({ w0 with buffer := [] }, [w.buffer])
  else
    ({ w0 with buffer := [] }, [])

/-- Repeated buffer appends: the payloads of several `Writer.Write` calls
that all reach the buffer before the flusher flushes. -/
def Writer.appendAll (w : Writer ε) (ps : List (List Nat)) : Writer ε :=
  ps.foldl Writer.append w

/-- State of the non-blocking `DeadlineBufWriter` (writer.go lines
163-171): the buffer, the contents of the capacity-1 `errors` channel, and
whether the capacity-1 `notify` channel holds a pending wakeup. -/
structure DeadlineBufWriter (ε : Type) where
  buffer : List Nat
  errors : Option (BatchErr ε)
  notifyPending : Bool
  deriving DecidableEq, Repr

/-- A freshly constructed non-blocking writer, per `NewDeadlineBufWriter`
(writer.go lines 173-185). -/
def DeadlineBufWriter.new : DeadlineBufWriter ε := ⟨[], none, false⟩

/-- `DeadlineBufWriter.flushLocked` (writer.go lines 237-251): an empty
buffer is a no-op; otherwise the buffer is passed to the sink once, any
count different from the buffered length replaces the sink's error with
`ErrShortWrite`, and the buffer is truncated to empty unconditionally.
Returns the new state, the returned error, and the payloads passed to
the sink. -/
def DeadlineBufWriter.flushLocked (w : DeadlineBufWriter ε) (sink : Sink ε) :
    DeadlineBufWriter ε × Option (BatchErr ε) × List (List Nat) :=
  if w.buffer.length = 0 then (w, none, [])
  else
    match sink w.buffer with
    | (n, serr) =>
      let rerr : Option (BatchErr ε) :=
        if n ≠ w.buffer.length then some BatchErr.shortWrite
        else serr.map BatchErr.sinkErr
      ({ w with buffer := [] }, rerr, [w.buffer])

/-- `DeadlineBufWriter.Write` (writer.go lines 187-213): first drain the
`errors` channel and return `(0, err)` without buffering when an error is
queued; otherwise append the payload, flush inline when the buffer has
grown strictly beyond `maxSize`, and otherwise do a non-blocking send on
`notify`. Returns the new state, the call's `(written, err)` result, and
the payloads passed to the sink. -/
def DeadlineBufWriter.write (w : DeadlineBufWriter ε) (sink : Sink ε)
    (maxSize : Nat) (p : List Nat) :
    DeadlineBufWriter ε × (Nat × Option (BatchErr ε)) × List (List Nat) :=
  match w.errors with
  | some e => ({ w with errors := none }, (0, some e), [])
  | none =>
    let w1 : DeadlineBufWriter ε := { w with buffer := w.buffer ++ p }
    if w1.buffer.length > maxSize then
      match w1.flushLocked sink with
      | (w2, some e, calls) => (w2, (0, some e), calls)
      | (w2, none, calls) => (w2, (p.length, none), calls)
    else
      ({ w1 with notifyPending := true }, (p.length, none), [])

/-- Outcome of `DeadlineBufWriter.Close` as observed from outside: the
returned error, whether the `notify` channel was closed, and whether the
sink's close operation was invoked. -/
structure CloseOutcome (ε : Type) where
  result : Option (BatchErr ε)
  notifyClosed : Bool
  sinkCloseCalled : Bool
  deriving DecidableEq, Repr

/-- `DeadlineBufWriter.Close` (writer.go lines 215-235): drain a queued
error and return it; otherwise flush, and on flush failure return that
error without closing `notify` and without forwarding to the sink's close.
Only after a successful (or empty) flush is `notify` closed and, when the
sink implements `io.Closer` (`hasCloser`), its close invoked, returning
its result `closeErr` verbatim. -/
def DeadlineBufWriter.close (w : DeadlineBufWriter ε) (sink : Sink ε)
    (hasCloser : Bool) (closeErr : Option ε) :
    DeadlineBufWriter ε × CloseOutcome ε × List (List Nat) :=
  match w.errors with
  | some e => ({ w with errors := none }, ⟨some e, false, false⟩, [])
  | none =>
    match w.flushLocked sink with
    | (w2, some e, calls) => (w2, ⟨some e, false, false⟩, calls)
    | (w2, none, calls) =>
      if hasCloser then (w2, ⟨closeErr.map BatchErr.sinkErr, true, true⟩, calls)
      else (w2, ⟨none, true, false⟩, calls)

/-- One iteration of `DeadlineBufWriter.flusher` (writer.go lines
253-264), entered on receiving from `notify` (emptying that slot) and
after the `Timeout` sleep: flush under the lock, and on failure send the
error on the capacity-1 `errors` channel. That send (line 261) is a plain
blocking channel send: it completes only when the slot is empty; with the
slot already occupied the worker blocks, modelled as `none` (no completed
step). -/
def DeadlineBufWriter.flusherStep (w : DeadlineBufWriter ε) (sink : Sink ε) :
    Option (DeadlineBufWriter ε × List (List Nat)) :=
  let w0 : DeadlineBufWriter ε := { w with notifyPending := false }
  match w0.flushLocked sink with
  | (w2, none, calls) => some (w2, calls)
  | (w2, some e, calls) =>
    match w2.errors with
    | none => some ({ w2 with errors := some e }, calls)
    | some _ => none

/-- Sequential `DeadlineBufWriter.Write` calls, accumulating every payload
passed to the sink along the way. -/
def DeadlineBufWriter.writeAll (w : DeadlineBufWriter ε) (sink : Sink ε)
    (maxSize : Nat) (ps : List (List Nat)) :
    DeadlineBufWriter ε × List (List Nat) :=
  match ps with
  | [] => (w, [])
  | p :: rest =>
    match w.write sink maxSize p with
    | (w1, _, calls1) =>
      match w1.writeAll sink maxSize rest with
      | (w2, calls2) => (w2, calls1 ++ calls2)

/-- A sink that accepts every write in full, used for concrete runs. -/
def sinkOk : Sink Nat := fun b => (b.length, none)

/-- A sink that rejects every write with error `7`, accepting 0 bytes,
used for concrete runs. -/
def sinkFail : Sink Nat := fun _ => (0, some 7)

/-- A sink that reports accepting 0 bytes with no error: a pure short
write, used for concrete runs. -/
def sinkZero : Sink Nat := fun _ => (0, none)

end Batchio

namespace Batchio

variable {ε : Type}

/-- A flush cycle of the blocking writer passes the buffer to the sink
exactly when it is non-empty. -/
theorem Writer.flushCycle_calls (w : Writer ε) (sink : Sink ε) :
    (w.flushCycle sink).2 = if w.buffer.isEmpty then [] else [w.buffer] := by
  rcases w with ⟨buf, err, np⟩
  cases buf with
  | nil => simp [Writer.flushCycle]
  | cons a l =>
    simp only [Writer.flushCycle, List.isEmpty_cons]
    rcases hs : sink (a :: l) with ⟨n, serr⟩
    cases serr with
    | some e => simp [hs]
    | none =>
      simp only [hs]
      simp
      split <;> rfl

/-- When the sink reports an error, the blocking flush stores it (wrapped
as a sink error) and leaves the buffer untouched. -/
theorem Writer.flushCycle_sinkErr (w : Writer ε) (sink : Sink ε) (n : Nat) (e : ε)
    (hne : w.buffer ≠ []) (hs : sink w.buffer = (n, some e)) :
    ((w.flushCycle sink).1).err = some (BatchErr.sinkErr e)
    ∧ ((w.flushCycle sink).1).buffer = w.buffer := by
  rcases w with ⟨buf, err, np⟩
  cases buf with
  | nil => exact absurd rfl hne
  | cons a l => simp [Writer.flushCycle, hs]

/-- When the sink reports no error but a short count, the blocking flush
stores `ErrShortWrite` and leaves the buffer untouched. -/
theorem Writer.flushCycle_short (w : Writer ε) (sink : Sink ε) (n : Nat)
    (hs : sink w.buffer = (n, none)) (hn : n < w.buffer.length) :
    ((w.flushCycle sink).1).err = some BatchErr.shortWrite
    ∧ ((w.flushCycle sink).1).buffer = w.buffer := by
  rcases w with ⟨buf, err, np⟩
  cases buf with
  | nil => simp at hn
  | cons a l =>
    have hn' : n < l.length + 1 := by simpa using hn
    simp [Writer.flushCycle, hs, if_pos hn']

/-- When the sink reports no error and a full count, the blocking flush
clears the buffer and leaves the stored error exactly as it was. -/
theorem Writer.flushCycle_success (w : Writer ε) (sink : Sink ε) (n : Nat)
    (hs : sink w.buffer = (n, none)) (hn : ¬ n < w.buffer.length) :
    ((w.flushCycle sink).1).err = w.err
    ∧ ((w.flushCycle sink).1).buffer = [] := by
  rcases w with ⟨buf, err, np⟩
  cases buf with
  | nil => simp [Writer.flushCycle]
  | cons a l =>
    have hn' : ¬ n < l.length + 1 := by simpa using hn
    simp [Writer.flushCycle, hs, if_neg hn']

/-- `flushLocked` always leaves the buffer empty, whatever the sink did. -/
theorem DeadlineBufWriter.flushLocked_buffer (w : DeadlineBufWriter ε) (sink : Sink ε) :
    ((w.flushLocked sink).1).buffer = [] := by
  rcases w with ⟨buf, errs, np⟩
  cases buf with
  | nil => simp [DeadlineBufWriter.flushLocked]
  | cons a l =>
    simp only [DeadlineBufWriter.flushLocked]
    rcases hs : sink (a :: l) with ⟨n, serr⟩
    simp [hs]

/-- `flushLocked` never touches the `errors` channel slot. -/
theorem DeadlineBufWriter.flushLocked_errors (w : DeadlineBufWriter ε) (sink : Sink ε) :
    ((w.flushLocked sink).1).errors = w.errors := by
  rcases w with ⟨buf, errs, np⟩
  cases buf with
  | nil => simp [DeadlineBufWriter.flushLocked]
  | cons a l =>
    simp only [DeadlineBufWriter.flushLocked]
    rcases hs : sink (a :: l) with ⟨n, serr⟩
    simp [hs]

/-- `flushLocked` passes the buffer to the sink exactly when non-empty. -/
theorem DeadlineBufWriter.flushLocked_calls (w : DeadlineBufWriter ε) (sink : Sink ε) :
    (w.flushLocked sink).2.2 = if w.buffer.isEmpty then [] else [w.buffer] := by
  rcases w with ⟨buf, errs, np⟩
  cases buf with
  | nil => simp [DeadlineBufWriter.flushLocked]
  | cons a l =>
    simp only [DeadlineBufWriter.flushLocked, List.isEmpty_cons]
    rcases hs : sink (a :: l) with ⟨n, serr⟩
    simp [hs]

/-- The error `flushLocked` returns on a non-empty buffer: `ErrShortWrite`
whenever the accepted count differs from the buffered length, the sink's
own error (verbatim) otherwise. -/
theorem DeadlineBufWriter.flushLocked_err (w : DeadlineBufWriter ε) (sink : Sink ε)
    (n : Nat) (serr : Option ε) (hne : w.buffer ≠ []) (hs : sink w.buffer = (n, serr)) :
    (w.flushLocked sink).2.1 =
      if n ≠ w.buffer.length then some BatchErr.shortWrite
      else serr.map BatchErr.sinkErr := by
  rcases w with ⟨buf, errs, np⟩
  cases buf with
  | nil => exact absurd rfl hne
  | cons a l => simp [DeadlineBufWriter.flushLocked, hs]

end Batchio

namespace Batchio

variable {ε : Type}

/-- Appending the payloads of several writes concatenates them onto the
buffer in arrival order. -/
theorem Writer.appendAll_buffer (ps : List (List Nat)) (w : Writer ε) :
    (w.appendAll ps).buffer = w.buffer ++ ps.flatten := by
  induction ps generalizing w with
  | nil => simp [Writer.appendAll]
  | cons p rest ih =>
    show ((w.append p).appendAll rest).buffer = _
    rw [ih]
    simp [Writer.append, List.append_assoc]

/-- When no error is queued, one worker iteration always completes, and its
sink calls are the flush of the current buffer: exactly one call carrying
the whole buffer when it is non-empty, none otherwise. -/
theorem DeadlineBufWriter.flusherStep_calls (w : DeadlineBufWriter ε) (sink : Sink ε)
    (h : w.errors = none) :
    (w.flusherStep sink).map Prod.snd
      = some (if w.buffer.isEmpty then [] else [w.buffer]) := by
  have hcalls := DeadlineBufWriter.flushLocked_calls
    ({ w with notifyPending := false } : DeadlineBufWriter ε) sink
  have herr := DeadlineBufWriter.flushLocked_errors
    ({ w with notifyPending := false } : DeadlineBufWriter ε) sink
  simp only [DeadlineBufWriter.flusherStep]
  rcases hf : ({ w with notifyPending := false } : DeadlineBufWriter ε).flushLocked sink
    with ⟨w2, rerr, calls⟩
  rw [hf] at hcalls herr
  simp only at hcalls herr
  cases rerr with
  | none => simp [hcalls]
  | some e => simp [herr, h, hcalls]

/-- A run of sequential non-blocking writes whose payloads keep the buffer
within `maxSize` only accumulates: no inline flush happens, no sink call is
made, no error appears, and the buffer ends as the concatenation. -/
theorem DeadlineBufWriter.writeAll_small (ps : List (List Nat)) (w : DeadlineBufWriter ε)
    (sink : Sink ε) (maxSize : Nat) (h : w.errors = none)
    (hlen : w.buffer.length + ps.flatten.length ≤ maxSize) :
    (w.writeAll sink maxSize ps).1.buffer = w.buffer ++ ps.flatten
    ∧ (w.writeAll sink maxSize ps).1.errors = none
    ∧ (w.writeAll sink maxSize ps).2 = [] := by
  induction ps generalizing w with
  | nil => simp [DeadlineBufWriter.writeAll, h]
  | cons p rest ih =>
    have hlen' : w.buffer.length + (p.length + rest.flatten.length) ≤ maxSize := by
      simpa using hlen
    have hw : w.write sink maxSize p
        = ({ w with buffer := w.buffer ++ p, notifyPending := true }, (p.length, none), []) := by
      have hnot : ¬ maxSize < w.buffer.length + p.length := by omega
      simp [DeadlineBufWriter.write, h, hnot]
    have ih' := ih ({ w with buffer := w.buffer ++ p, notifyPending := true })
      (by simpa using h)
      (by show (w.buffer ++ p).length + rest.flatten.length ≤ maxSize
          rw [List.length_append]; omega)
    simp only [DeadlineBufWriter.writeAll, hw]
    simp only at ih'
    refine ⟨?_, ih'.2.1, ?_⟩
    · rw [ih'.1]
      simp [List.append_assoc]
    · simp [ih'.2.2]

end Batchio

namespace Batchio

variable {ε : Type}

/-- C9: in both variants the underlying sink's write is never invoked with
an empty byte sequence: a flush passes the buffer to the sink exactly when
the buffer is non-empty (one call, carrying the whole buffer), and a flush
cycle on an empty buffer performs no sink call at all. -/
theorem C9_thm (w : Writer ε) (wd : DeadlineBufWriter ε) (sink sinkd : Sink ε) :
    (w.flushCycle sink).2 = (if w.buffer.isEmpty then [] else [w.buffer])
    ∧ (wd.flushLocked sinkd).2.2 = (if wd.buffer.isEmpty then [] else [wd.buffer])
    ∧ ((w.flushCycle sink).2.all fun c => !c.isEmpty) = true
    ∧ ((wd.flushLocked sinkd).2.2.all fun c => !c.isEmpty) = true := by
  refine ⟨Writer.flushCycle_calls w sink, DeadlineBufWriter.flushLocked_calls wd sinkd, ?_, ?_⟩
  · rw [Writer.flushCycle_calls w sink]
    cases hb : w.buffer <;> simp
  · rw [DeadlineBufWriter.flushLocked_calls wd sinkd]
    cases hb : wd.buffer <;> simp

/-- C3 counterexample: in the blocking `Writer`, a flush in which the sink
errors (here `sinkFail`, accepting 0 bytes of `[1]` with error `7`) leaves
the buffer untouched rather than clearing it, contradicting the claim that
in either variant the buffer is cleared by the end of a failing flush. -/
theorem C3_cex :
    sinkFail [1] = (0, some 7)
    ∧ (((⟨[1], none, false⟩ : Writer Nat).flushCycle sinkFail).1).buffer = [1]
    ∧ (((⟨[1], none, false⟩ : Writer Nat).flushCycle sinkFail).1).buffer ≠ [] := by
  decide

/-- C3 amended: the non-blocking `DeadlineBufWriter` clears the buffer on
every flush regardless of outcome, so its failing bytes are never re-sent;
the blocking `Writer` instead retains the buffer when the sink errors or
reports a short count, clearing it only on full success. -/
theorem C3_thm (wd : DeadlineBufWriter ε) (w w2 : Writer ε)
    (sinkd sink sink2 : Sink ε) (n : Nat) (e : ε) :
    (wd.flushLocked sinkd).1.buffer = []
    ∧ (sink w.buffer = (n, some e) → ((w.flushCycle sink).1).buffer = w.buffer)
    ∧ (∀ m : Nat, sink2 w2.buffer = (m, none) → m < w2.buffer.length →
        ((w2.flushCycle sink2).1).buffer = w2.buffer) := by
  refine ⟨DeadlineBufWriter.flushLocked_buffer wd sinkd, ?_, ?_⟩
  · intro hs
    cases hb : w.buffer with
    | nil =>
      rcases w with ⟨buf, err, np⟩
      simp only at hb
      subst hb
      simp [Writer.flushCycle]
    | cons a l =>
      have hbuf := (Writer.flushCycle_sinkErr w sink n e (by simp [hb]) hs).2
      rw [hbuf, hb]
  · intro m hs hm
    exact (Writer.flushCycle_short w2 sink2 m hs hm).2

/-- C3 witness: concrete instance of the amended claim, with the deadline
writer flushing `[2]` through a successful sink and the blocking writer
failing to flush `[1]` through `sinkFail` and keeping it buffered. -/
theorem C3_witness :
    ((⟨[2], none, false⟩ : DeadlineBufWriter Nat).flushLocked sinkOk).1.buffer = []
    ∧ (((⟨[1], none, false⟩ : Writer Nat).flushCycle sinkFail).1).buffer = [1]
    ∧ (((⟨[4], none, false⟩ : Writer Nat).flushCycle sinkZero).1).buffer = [4] := by
  have h := C3_thm (⟨[2], none, false⟩ : DeadlineBufWriter Nat)
    (⟨[1], none, false⟩ : Writer Nat) (⟨[4], none, false⟩ : Writer Nat)
    sinkOk sinkFail sinkZero 0 7
  exact ⟨h.1, h.2.1 (by decide), h.2.2 0 (by decide) (by decide)⟩

end Batchio

namespace Batchio

variable {ε : Type}

/-- C4 counterexample: in the blocking `Writer`, the byte `9`, appended by
a single write, is passed to the sink in a first (failing) flush and then
again in the next flush, contradicting the claim that no byte is ever
passed to the sink in more than one flush. -/
theorem C4_cex :
    ((⟨[9], none, false⟩ : Writer Nat).flushCycle sinkFail).2 = [[9]]
    ∧ ((((⟨[9], none, false⟩ : Writer Nat).flushCycle sinkFail).1).flushCycle sinkOk).2
        = [[9]] := by
  decide

/-- C4 amended: after every successful flush the buffer is empty in both
variants, and the non-blocking variant never re-sends a byte (the buffer
is cleared by every flush, so a following flush makes no sink call); the
blocking `Writer`, however, retains the buffer after a failed flush and
passes the same bytes to the sink again in the next flush. -/
theorem C4_thm (w wf : Writer ε) (wd : DeadlineBufWriter ε)
    (sink sinkf sinkf2 sinkd sinkd2 : Sink ε) (n : Nat) (e : ε) :
    (∀ m : Nat, sink w.buffer = (m, none) → ¬ m < w.buffer.length →
      ((w.flushCycle sink).1).buffer = [])
    ∧ (wd.flushLocked sinkd).1.buffer = []
    ∧ (((wd.flushLocked sinkd).1).flushLocked sinkd2).2.2 = []
    ∧ (sinkf wf.buffer = (n, some e) → wf.buffer ≠ [] →
        (((wf.flushCycle sinkf).1).flushCycle sinkf2).2 = [wf.buffer]) := by
  refine ⟨?_, DeadlineBufWriter.flushLocked_buffer wd sinkd, ?_, ?_⟩
  · intro m hs hm
    exact (Writer.flushCycle_success w sink m hs hm).2
  · rw [DeadlineBufWriter.flushLocked_calls]
    simp [DeadlineBufWriter.flushLocked_buffer wd sinkd]
  · intro hs hne
    have h1 := (Writer.flushCycle_sinkErr wf sinkf n e hne hs).2
    rw [Writer.flushCycle_calls, h1]
    simp [hne]

/-- C4 witness: concrete instance of the amended claim, with a successful
flush of `[3]`, deadline flushes of `[2]`, and a failing then repeated
blocking flush of `[9]`. -/
theorem C4_witness :
    (((⟨[3], none, false⟩ : Writer Nat).flushCycle sinkOk).1).buffer = []
    ∧ ((⟨[2], none, false⟩ : DeadlineBufWriter Nat).flushLocked sinkOk).1.buffer = []
    ∧ ((((⟨[2], none, false⟩ : DeadlineBufWriter Nat).flushLocked sinkOk).1).flushLocked
        sinkOk).2.2 = []
    ∧ ((((⟨[9], none, false⟩ : Writer Nat).flushCycle sinkFail).1).flushCycle sinkOk).2
        = [[9]] := by
  have h := C4_thm (⟨[3], none, false⟩ : Writer Nat) (⟨[9], none, false⟩ : Writer Nat)
    (⟨[2], none, false⟩ : DeadlineBufWriter Nat) sinkOk sinkFail sinkOk sinkOk sinkOk 0 7
  exact ⟨h.1 1 (by decide) (by decide), h.2.1, h.2.2.1, h.2.2.2 (by decide) (by decide)⟩

/-- C6 counterexample: the non-blocking variant does not forward the
sink's error verbatim when the accepted count is short: flushing `[1, 2]`
through `sinkFail` (which returns `(0, error 7)`) reports `ErrShortWrite`,
not the sink's own error. -/
theorem C6_cex :
    sinkFail [1, 2] = (0, some 7)
    ∧ ((⟨[1, 2], none, false⟩ : DeadlineBufWriter Nat).flushLocked sinkFail).2.1
        = some BatchErr.shortWrite
    ∧ ((⟨[1, 2], none, false⟩ : DeadlineBufWriter Nat).flushLocked sinkFail).2.1
        ≠ some (BatchErr.sinkErr 7) := by
  decide

/-- C6 amended: the blocking `Writer` records the sink's error verbatim for
every return `(n, err)` with `err` non-nil, including short counts; the
non-blocking variant forwards the sink's error verbatim only when the
accepted count equals the buffered length, and reports `ErrShortWrite` in
place of it otherwise. -/
theorem C6_thm (w : Writer ε) (wd : DeadlineBufWriter ε) (sink sinkd : Sink ε)
    (n m : Nat) (e e2 : ε) :
    (w.buffer ≠ [] → sink w.buffer = (n, some e) →
      ((w.flushCycle sink).1).err = some (BatchErr.sinkErr e))
    ∧ (wd.buffer ≠ [] → sinkd wd.buffer = (m, some e2) →
      (wd.flushLocked sinkd).2.1 =
        if m ≠ wd.buffer.length then some BatchErr.shortWrite
        else some (BatchErr.sinkErr e2)) := by
  constructor
  · intro hne hs
    exact (Writer.flushCycle_sinkErr w sink n e hne hs).1
  · intro hne hs
    rw [DeadlineBufWriter.flushLocked_err wd sinkd m (some e2) hne hs]
    simp

/-- C6 witness: concrete instance of the amended claim; the blocking
writer forwards error `7` verbatim on a short failing write of `[5]`, and
the deadline writer replaces it with `ErrShortWrite` on `[1, 2]`. -/
theorem C6_witness :
    (((⟨[5], none, false⟩ : Writer Nat).flushCycle sinkFail).1).err
        = some (BatchErr.sinkErr 7)
    ∧ ((⟨[1, 2], none, false⟩ : DeadlineBufWriter Nat).flushLocked sinkFail).2.1
        = some BatchErr.shortWrite := by
  have h := C6_thm (⟨[5], none, false⟩ : Writer Nat)
    (⟨[1, 2], none, false⟩ : DeadlineBufWriter Nat) sinkFail sinkFail 0 0 7 7
  refine ⟨h.1 (by decide) (by decide), ?_⟩
  have h2 := h.2 (by decide) (by decide)
  simpa using h2

end Batchio

namespace Batchio

variable {ε : Type}

/-- C2 counterexample: blocking writer, buffer `[1, 2]`; the first flush
fails with sink error `7`; a later write appends `[5]` and the second
flush succeeds (through `sinkOk`) and clears the buffer — yet the waiting
write still observes `(0, error 7)` instead of `(1, nil)`: the stored
error was never cleared. -/
theorem C2_cex :
    ((((⟨[1, 2], none, false⟩ : Writer Nat).flushCycle sinkFail).1).err
        = some (BatchErr.sinkErr 7))
    ∧ (((((⟨[1, 2], none, false⟩ : Writer Nat).flushCycle sinkFail).1.append [5]).flushCycle
        sinkOk).1).buffer = []
    ∧ (((((⟨[1, 2], none, false⟩ : Writer Nat).flushCycle sinkFail).1.append [5]).flushCycle
        sinkOk).1).writeResult [5] = (0, some (BatchErr.sinkErr 7))
    ∧ (((((⟨[1, 2], none, false⟩ : Writer Nat).flushCycle sinkFail).1.append [5]).flushCycle
        sinkOk).1).writeResult [5] ≠ (([5] : List Nat).length, none) := by
  decide

/-- C2 amended: when a flush in the blocking writer fails, the error is
reported to every write waiting on that cycle; the stored error is never
cleared, so a write waiting on a later flush cycle — even one whose sink
write fully succeeds and clears the buffer — still returns `(0, stored
error)` rather than `(len(p), nil)`. -/
theorem C2_thm (w : Writer ε) (sink1 sink2 : Sink ε) (e : BatchErr ε) (p q : List Nat)
    (h1 : ((w.flushCycle sink1).1).err = some e)
    (h2 : sink2 (((w.flushCycle sink1).1.append q).buffer)
        = ((((w.flushCycle sink1).1.append q).buffer).length, none)) :
    ((w.flushCycle sink1).1).writeResult p = (0, some e)
    ∧ ((((w.flushCycle sink1).1.append q).flushCycle sink2).1).buffer = []
    ∧ ((((w.flushCycle sink1).1.append q).flushCycle sink2).1).err = some e
    ∧ ((((w.flushCycle sink1).1.append q).flushCycle sink2).1).writeResult q
        = (0, some e) := by
  have hsucc := Writer.flushCycle_success ((w.flushCycle sink1).1.append q) sink2 _ h2
    (lt_irrefl _)
  have happ : ((w.flushCycle sink1).1.append q).err = some e := by
    simpa [Writer.append] using h1
  refine ⟨?_, hsucc.2, ?_, ?_⟩
  · simp [Writer.writeResult, h1]
  · rw [hsucc.1, happ]
  · simp [Writer.writeResult, hsucc.1, happ]

/-- C2 witness: the amended claim at the concrete counterexample trace. -/
theorem C2_witness :
    ((((⟨[1, 2], none, false⟩ : Writer Nat).flushCycle sinkFail).1).err
        = some (BatchErr.sinkErr 7))
    ∧ (((((⟨[1, 2], none, false⟩ : Writer Nat).flushCycle sinkFail).1.append [5]).flushCycle
        sinkOk).1).writeResult [5] = (0, some (BatchErr.sinkErr 7)) := by
  refine ⟨by decide, ?_⟩
  exact (C2_thm (⟨[1, 2], none, false⟩ : Writer Nat) sinkFail sinkOk
    (BatchErr.sinkErr 7) [4] [5] (by decide) (by decide)).2.2.2

/-- A non-blocking write with no queued error whose payload keeps the
buffer at or below `maxSize` only appends and signals the worker. -/
theorem DeadlineBufWriter.write_small (w : DeadlineBufWriter ε) (sink : Sink ε)
    (maxSize : Nat) (p : List Nat) (h : w.errors = none)
    (hle : ¬ maxSize < w.buffer.length + p.length) :
    w.write sink maxSize p
      = ({ w with buffer := w.buffer ++ p, notifyPending := true }, (p.length, none), []) := by
  simp [DeadlineBufWriter.write, h, hle]

/-- A non-blocking write with no queued error whose payload pushes the
buffer strictly beyond `maxSize` performs the flush inline and returns its
result: `(0, err)` when the inline flush errs, `(len(p), nil)` otherwise. -/
theorem DeadlineBufWriter.write_big (w : DeadlineBufWriter ε) (sink : Sink ε)
    (maxSize : Nat) (p : List Nat) (h : w.errors = none)
    (hgt : maxSize < w.buffer.length + p.length) :
    w.write sink maxSize p
      = ((({ w with buffer := w.buffer ++ p } : DeadlineBufWriter ε).flushLocked sink).1,
         (match (({ w with buffer := w.buffer ++ p } : DeadlineBufWriter ε).flushLocked
             sink).2.1 with
          | some e => (0, some e)
          | none => (p.length, none)),
         (({ w with buffer := w.buffer ++ p } : DeadlineBufWriter ε).flushLocked sink).2.2) := by
  rcases hf : ({ w with buffer := w.buffer ++ p } : DeadlineBufWriter ε).flushLocked sink
    with ⟨w2, rerr, calls⟩
  rw [h] at hf
  cases rerr <;> simp [DeadlineBufWriter.write, h, hgt, hf]

end Batchio

namespace Batchio

variable {ε : Type}

/-- C5 counterexample: with `maxSize = 2`, a non-blocking write that
brings the buffer to exactly `maxSize` bytes (`[1]` then payload `[2]`)
does not flush inline: no sink call is made and the bytes stay buffered,
contradicting the claim that a buffer size equal to `MaxSize` triggers the
inline flush on that same call. -/
theorem C5_cex :
    ((⟨[1], none, false⟩ : DeadlineBufWriter Nat).write sinkOk 2 [2]).2.2 = []
    ∧ ((⟨[1], none, false⟩ : DeadlineBufWriter Nat).write sinkOk 2 [2]).1.buffer = [1, 2]
    ∧ ([1, 2] : List Nat).length = 2 := by
  decide

/-- C5 amended: the non-blocking write flushes inline, and returns that
flush's result, exactly when the appended buffer strictly exceeds
`maxSize`; at or below `maxSize` (including exactly at it) the flush is
deferred to the worker and the call returns success with the payload
buffered. In the blocking writer, the worker skips the `Timeout` sleep
exactly when the buffer size is at least `maxSize`. -/
theorem C5_thm (w : DeadlineBufWriter ε) (wb : Writer ε) (sink : Sink ε)
    (maxSize : Nat) (p : List Nat) (h : w.errors = none) :
    ((w.buffer ++ p).length > maxSize →
      (w.write sink maxSize p).2.2 = [w.buffer ++ p]
      ∧ (w.write sink maxSize p).2.1
          = (match (({ w with buffer := w.buffer ++ p } : DeadlineBufWriter ε).flushLocked
              sink).2.1 with
             | some e => (0, some e)
             | none => (p.length, none)))
    ∧ ((w.buffer ++ p).length ≤ maxSize →
      (w.write sink maxSize p).2.2 = [] ∧ (w.write sink maxSize p).1.buffer = w.buffer ++ p)
    ∧ (wb.sleepsBeforeFlush maxSize = false ↔ maxSize ≤ wb.buffer.length) := by
  refine ⟨?_, ?_, ?_⟩
  · intro hgt
    have hgt' : maxSize < w.buffer.length + p.length := by
      simpa [List.length_append] using hgt
    have hne : (w.buffer ++ p) ≠ [] := by
      intro hnil
      rw [hnil] at hgt
      simp at hgt
    have hb := DeadlineBufWriter.write_big w sink maxSize p h hgt'
    have hcalls := DeadlineBufWriter.flushLocked_calls
      ({ w with buffer := w.buffer ++ p } : DeadlineBufWriter ε) sink
    rw [hb]
    refine ⟨?_, rfl⟩
    rw [hcalls]
    simp [hne]
  · intro hle
    have hle' : ¬ maxSize < w.buffer.length + p.length := by
      rw [List.length_append] at hle
      omega
    rw [DeadlineBufWriter.write_small w sink maxSize p h hle']
    exact ⟨rfl, rfl⟩
  · simp [Writer.sleepsBeforeFlush]

/-- C5 witness: the amended claim at concrete inputs: payload `[2, 3]`
onto buffer `[1]` with `maxSize = 2` flushes inline; payload `[2]` onto
`[1]` stays buffered; a blocking buffer of 2 bytes at `maxSize = 2` skips
the sleep. -/
theorem C5_witness :
    ((⟨[1], none, false⟩ : DeadlineBufWriter Nat).write sinkOk 2 [2, 3]).2.2 = [[1, 2, 3]]
    ∧ ((⟨[1], none, false⟩ : DeadlineBufWriter Nat).write sinkOk 2 [2]).2.2 = []
    ∧ ((⟨[1], none, false⟩ : DeadlineBufWriter Nat).write sinkOk 2 [2]).1.buffer = [1, 2]
    ∧ (⟨[4, 5], none, false⟩ : Writer Nat).sleepsBeforeFlush 2 = false := by
  have hbig := (C5_thm (⟨[1], none, false⟩ : DeadlineBufWriter Nat)
    (⟨[4, 5], none, false⟩ : Writer Nat) sinkOk 2 [2, 3] rfl).1 (by decide)
  have hsmall := (C5_thm (⟨[1], none, false⟩ : DeadlineBufWriter Nat)
    (⟨[4, 5], none, false⟩ : Writer Nat) sinkOk 2 [2] rfl).2.1 (by decide)
  have hskip := (C5_thm (⟨[1], none, false⟩ : DeadlineBufWriter Nat)
    (⟨[4, 5], none, false⟩ : Writer Nat) sinkOk 2 [2] rfl).2.2.mpr (by decide)
  exact ⟨hbig.1, hsmall.1, hsmall.2, hskip⟩

end Batchio

namespace Batchio

variable {ε : Type}

/-- C7 counterexample: a worker flush that fails (short write of `[1]`
through `sinkFail`) while the single-slot error channel is already
occupied does not drop the new error and proceed: the send on the channel
is a blocking send, so the worker's iteration cannot complete (`none`). -/
theorem C7_cex :
    ((⟨[1], some (BatchErr.sinkErr 3), true⟩ : DeadlineBufWriter Nat).flushLocked
        sinkFail).2.1 = some BatchErr.shortWrite
    ∧ (⟨[1], some (BatchErr.sinkErr 3), true⟩ : DeadlineBufWriter Nat).errors
        = some (BatchErr.sinkErr 3)
    ∧ ((⟨[1], some (BatchErr.sinkErr 3), true⟩ : DeadlineBufWriter Nat).flusherStep sinkFail)
        = none := by
  decide

/-- C7 amended: in the non-blocking worker, a failing flush's error is
delivered by a blocking send on the capacity-1 error channel: when the
slot is empty the error is queued and the worker proceeds; when the slot
already holds an unconsumed error the worker blocks — its iteration does
not complete — rather than dropping the new error. -/
theorem C7_thm (w : DeadlineBufWriter ε) (sink : Sink ε) (e : BatchErr ε)
    (hfail : (({ w with notifyPending := false } : DeadlineBufWriter ε).flushLocked
        sink).2.1 = some e) :
    (w.errors = none →
      w.flusherStep sink
        = some ({ (({ w with notifyPending := false } : DeadlineBufWriter ε).flushLocked
                sink).1 with errors := some e },
            (({ w with notifyPending := false } : DeadlineBufWriter ε).flushLocked
                sink).2.2))
    ∧ (∀ e0, w.errors = some e0 → w.flusherStep sink = none) := by
  have herr := DeadlineBufWriter.flushLocked_errors
    ({ w with notifyPending := false } : DeadlineBufWriter ε) sink
  constructor
  · intro h
    simp only [DeadlineBufWriter.flusherStep]
    rcases hf : ({ w with notifyPending := false } : DeadlineBufWriter ε).flushLocked sink
      with ⟨w2, rerr, calls⟩
    rw [hf] at hfail herr
    simp only at hfail herr
    subst hfail
    simp [herr, h]
  · intro e0 h
    simp only [DeadlineBufWriter.flusherStep]
    rcases hf : ({ w with notifyPending := false } : DeadlineBufWriter ε).flushLocked sink
      with ⟨w2, rerr, calls⟩
    rw [hf] at hfail herr
    simp only at hfail herr
    subst hfail
    simp [herr, h]

end Batchio

namespace Batchio

variable {ε : Type}

/-- C7 witness: the amended claim at concrete inputs: with an empty error
slot the failing flush of `[1]` queues `ErrShortWrite` and the worker
proceeds; with the slot occupied the same failing flush blocks the
worker. -/
theorem C7_witness :
    ((⟨[1], none, false⟩ : DeadlineBufWriter Nat).flusherStep sinkFail)
        = some (⟨[], some BatchErr.shortWrite, false⟩, [[1]])
    ∧ ((⟨[1], some (BatchErr.sinkErr 3), true⟩ : DeadlineBufWriter Nat).flusherStep sinkFail)
        = none := by
  constructor
  · have h := (C7_thm (⟨[1], none, false⟩ : DeadlineBufWriter Nat) sinkFail
      BatchErr.shortWrite (by decide)).1 rfl
    rw [h]
    decide
  · exact (C7_thm (⟨[1], some (BatchErr.sinkErr 3), true⟩ : DeadlineBufWriter Nat) sinkFail
      BatchErr.shortWrite (by decide)).2 (BatchErr.sinkErr 3) rfl

/-- C8: a non-blocking write first drains the queued asynchronous error:
when one is present the call returns `(0, that error)` immediately, makes
no sink call, and does not append the payload (the buffer and the rest of
the state are untouched, the error slot is emptied); when none is present
the payload is appended — it either stays in the buffer or is flushed
inline as part of the whole appended buffer. -/
theorem C8_thm (w : DeadlineBufWriter ε) (sink : Sink ε) (maxSize : Nat) (p : List Nat) :
    (∀ e, w.errors = some e →
      w.write sink maxSize p = ({ w with errors := none }, (0, some e), []))
    ∧ (w.errors = none →
      ((w.write sink maxSize p).2.2 = [] ∧ (w.write sink maxSize p).1.buffer = w.buffer ++ p)
      ∨ ((w.write sink maxSize p).2.2 = [w.buffer ++ p]
          ∧ (w.write sink maxSize p).1.buffer = [])) := by
  constructor
  · intro e he
    simp [DeadlineBufWriter.write, he]
  · intro h
    by_cases hgt : maxSize < w.buffer.length + p.length
    · right
      have hne : (w.buffer ++ p) ≠ [] := by
        intro hnil
        have hlen : (w.buffer ++ p).length = 0 := by rw [hnil]; rfl
        rw [List.length_append] at hlen
        omega
      have hb := DeadlineBufWriter.write_big w sink maxSize p h hgt
      rw [hb]
      have hcalls := DeadlineBufWriter.flushLocked_calls
        ({ w with buffer := w.buffer ++ p } : DeadlineBufWriter ε) sink
      have hbuf := DeadlineBufWriter.flushLocked_buffer
        ({ w with buffer := w.buffer ++ p } : DeadlineBufWriter ε) sink
      rw [hcalls] at *
      refine ⟨?_, hbuf⟩
      simp [hne]
    · left
      rw [DeadlineBufWriter.write_small w sink maxSize p h hgt]
      exact ⟨rfl, rfl⟩

/-- C8 witness: a write against a queued error `9` returns it at once
without touching the buffer, and a write with no queued error appends its
payload. -/
theorem C8_witness :
    ((⟨[1], some (BatchErr.sinkErr 9), false⟩ : DeadlineBufWriter Nat).write sinkOk 4 [2])
        = (⟨[1], none, false⟩, (0, some (BatchErr.sinkErr 9)), [])
    ∧ ((((⟨[1], none, false⟩ : DeadlineBufWriter Nat).write sinkOk 4 [2]).2.2 = []
        ∧ ((⟨[1], none, false⟩ : DeadlineBufWriter Nat).write sinkOk 4 [2]).1.buffer
            = [1] ++ [2])
      ∨ (((⟨[1], none, false⟩ : DeadlineBufWriter Nat).write sinkOk 4 [2]).2.2 = [[1] ++ [2]]
        ∧ ((⟨[1], none, false⟩ : DeadlineBufWriter Nat).write sinkOk 4 [2]).1.buffer = [])) := by
  constructor
  · exact (C8_thm (⟨[1], some (BatchErr.sinkErr 9), false⟩ : DeadlineBufWriter Nat)
      sinkOk 4 [2]).1 (BatchErr.sinkErr 9) rfl
  · exact (C8_thm (⟨[1], none, false⟩ : DeadlineBufWriter Nat) sinkOk 4 [2]).2 rfl

/-- C10: when `DeadlineBufWriter.Close` finds no queued asynchronous error
and the final synchronous flush fails, it returns the flush error without
closing the notify (trigger) channel and without invoking the sink's close
operation; when the final flush succeeds (in particular when the buffer is
empty), the notify channel is closed and the sink's close is invoked
exactly when the sink has one. -/
theorem C10_thm (w : DeadlineBufWriter ε) (sink : Sink ε) (hasCloser : Bool)
    (closeErr : Option ε) (h : w.errors = none) :
    (∀ e, (w.flushLocked sink).2.1 = some e →
      w.close sink hasCloser closeErr
        = ((w.flushLocked sink).1, ⟨some e, false, false⟩, (w.flushLocked sink).2.2))
    ∧ ((w.flushLocked sink).2.1 = none →
      (w.close sink hasCloser closeErr).2.1.notifyClosed = true
      ∧ (w.close sink hasCloser closeErr).2.1.sinkCloseCalled = hasCloser) := by
  rcases hf : w.flushLocked sink with ⟨w2, rerr, calls⟩
  constructor
  · intro e he
    simp only at he
    subst he
    simp [DeadlineBufWriter.close, h, hf]
  · intro he
    simp only at he
    subst he
    cases hasCloser <;> simp [DeadlineBufWriter.close, h, hf]

/-- C10 witness: closing with a failing flush of `[1]` returns
`ErrShortWrite` with the notify channel left open and the sink's close not
invoked; closing with a successful flush of `[2]` closes the channel and
forwards to the sink's close. -/
theorem C10_witness :
    ((⟨[1], none, false⟩ : DeadlineBufWriter Nat).close sinkFail true none).2.1
        = ⟨some BatchErr.shortWrite, false, false⟩
    ∧ ((⟨[2], none, false⟩ : DeadlineBufWriter Nat).close sinkOk true none).2.1.notifyClosed
        = true
    ∧ ((⟨[2], none, false⟩ : DeadlineBufWriter Nat).close sinkOk true
        none).2.1.sinkCloseCalled = true := by
  refine ⟨?_, ?_, ?_⟩
  · have h := (C10_thm (⟨[1], none, false⟩ : DeadlineBufWriter Nat) sinkFail true none
      rfl).1 BatchErr.shortWrite (by decide)
    rw [h]
  · exact ((C10_thm (⟨[2], none, false⟩ : DeadlineBufWriter Nat) sinkOk true none rfl).2
      (by decide)).1
  · exact ((C10_thm (⟨[2], none, false⟩ : DeadlineBufWriter Nat) sinkOk true none rfl).2
      (by decide)).2

end Batchio

namespace Batchio

variable {ε : Type}

/-- C1 counterexample: a sequence consisting of one zero-length write
(whose size, 0, is below `MaxSize = 4`, as is the total) leads to zero
sink write calls at the flush, not exactly one: the flush skips the sink
entirely when the accumulated buffer is empty. -/
theorem C1_cex :
    (∀ p ∈ [([] : List Nat)], p.length < 4)
    ∧ ([([] : List Nat)]).flatten.length < 4
    ∧ (((Writer.new : Writer Nat).appendAll [[]]).flushCycle sinkOk).2.length = 0 := by
  decide

/-- C1 amended: for every sequence of writes, each below `MaxSize` and
with total size below `MaxSize`, all appended before the flush worker
flushes, and whose concatenated payload is non-empty, the sink's write is
invoked exactly once, receiving the concatenation of all payloads — in
the blocking `Writer` (appends followed by one flush cycle) and in the
`DeadlineBufWriter` (the writes themselves make no sink call, and the
worker's flush makes exactly one). -/
theorem C1_thm (ps : List (List Nat)) (maxSize : Nat) (sink sinkd : Sink ε)
    (_hEach : ∀ p ∈ ps, p.length < maxSize)
    (hTotal : ps.flatten.length < maxSize)
    (hNE : ps.flatten ≠ []) :
    (((Writer.new : Writer ε).appendAll ps).flushCycle sink).2 = [ps.flatten]
    ∧ ((DeadlineBufWriter.new : DeadlineBufWriter ε).writeAll sinkd maxSize ps).2 = []
    ∧ (((DeadlineBufWriter.new : DeadlineBufWriter ε).writeAll sinkd maxSize
          ps).1.flusherStep sinkd).map Prod.snd = some [ps.flatten] := by
  have hbuf : ((Writer.new : Writer ε).appendAll ps).buffer = ps.flatten := by
    rw [Writer.appendAll_buffer]
    simp [Writer.new]
  have hwa := DeadlineBufWriter.writeAll_small ps (DeadlineBufWriter.new : DeadlineBufWriter ε)
    sinkd maxSize rfl (by simpa [DeadlineBufWriter.new] using Nat.le_of_lt hTotal)
  refine ⟨?_, hwa.2.2, ?_⟩
  · rw [Writer.flushCycle_calls, hbuf]
    simp [hNE]
  · have hstep := DeadlineBufWriter.flusherStep_calls
      ((DeadlineBufWriter.new : DeadlineBufWriter ε).writeAll sinkd maxSize ps).1 sinkd hwa.2.1
    rw [hstep]
    have hb2 : (((DeadlineBufWriter.new : DeadlineBufWriter ε).writeAll sinkd maxSize
        ps).1).buffer = ps.flatten := by
      rw [hwa.1]
      simp [DeadlineBufWriter.new]
    rw [hb2]
    simp [hNE]

/-- C1 witness: two small writes `[1]` and `[2, 3]` with `maxSize = 10`:
the blocking flush cycle and the deadline worker's flush each pass the
single concatenated payload `[1, 2, 3]` to the sink exactly once. -/
theorem C1_witness :
    (∀ p ∈ [[1], [2, 3]], p.length < (10 : Nat))
    ∧ ([[1], [2, 3]] : List (List Nat)).flatten.length < 10
    ∧ ([[1], [2, 3]] : List (List Nat)).flatten ≠ []
    ∧ (((Writer.new : Writer Nat).appendAll [[1], [2, 3]]).flushCycle sinkOk).2 = [[1, 2, 3]]
    ∧ ((DeadlineBufWriter.new : DeadlineBufWriter Nat).writeAll sinkOk 10 [[1], [2, 3]]).2 = []
    ∧ (((DeadlineBufWriter.new : DeadlineBufWriter Nat).writeAll sinkOk 10
        [[1], [2, 3]]).1.flusherStep sinkOk).map Prod.snd = some [[1, 2, 3]] := by
  have h := C1_thm [[1], [2, 3]] 10 sinkOk sinkOk (by decide) (by decide) (by decide)
  exact ⟨by decide, by decide, by decide, h.1, h.2.1, h.2.2⟩

end Batchio
